import Mathlib

/-!
Shallow embedding of the `simple-file-server` repository
(`src/main.rs`, `src/http/request.rs`, `src/http/response.rs`).

Strings are modelled as `List Char` (the server handles ASCII request
data; Rust byte indices and char indices coincide on ASCII).  Byte
vectors (`Vec<u8>`) are modelled as `List Nat`, with `String::into_bytes`
modelled by UTF-8 encoding.  Filesystem access is modelled by an explicit
symlink-free filesystem record `Fs`; `std::fs::canonicalize` is the
POSIX `realpath` on such a filesystem: components are resolved left to
right from the root, `.` is skipped, `..` moves to the parent, and every
resolved intermediate and the final path must exist.
-/

abbrev Str := List Char

/-- ASCII lowercasing of one char (model of Rust `char::to_lowercase`
restricted to ASCII, which is all the server's header names use). -/
def charLower (c : Char) : Char :=
  if 65 ≤ c.toNat ∧ c.toNat ≤ 90 then Char.ofNat (c.toNat + 32) else c

/-- ASCII uppercasing of one char (model of Rust `char::to_uppercase`
restricted to ASCII, which is all the method tokens use). -/
def charUpper (c : Char) : Char :=
  if 97 ≤ c.toNat ∧ c.toNat ≤ 122 then Char.ofNat (c.toNat - 32) else c

def asciiLower (s : Str) : Str := s.map charLower

def asciiUpper (s : Str) : Str := s.map charUpper

/-- Model of Rust `char::is_whitespace` on the ASCII range. -/
def isWs (c : Char) : Bool :=
  c == ' ' || c == '\t' || c == '\n' || c == '\x0d'

/-- Model of Rust `str::trim`: strip whitespace from both ends. -/
def trimWs (s : Str) : Str :=
  ((s.dropWhile isWs).reverse.dropWhile isWs).reverse

/-- Split a string at every occurrence of the character `c`
(model of Rust `str::split(c)`); never returns an empty list. -/
def splitChar (c : Char) : Str → List Str
  | [] => [[]]
  | x :: rest =>
    match splitChar c rest with
    | [] => [[x]]
    | h :: t => if x == c then [] :: h :: t else (x :: h) :: t

/-- Model of Rust `str::lines`: split at `\n`, drop a final empty line,
strip one trailing `\r` from each line. -/
def rustLines (s : Str) : List Str :=
  let parts := splitChar '\n' s
  let parts := if parts.getLast? = some [] then parts.dropLast else parts
  parts.map fun l => if l.getLast? = some '\x0d' then l.dropLast else l

/-- Model of Rust `str::split_whitespace`: maximal runs of
non-whitespace characters. -/
def splitWs (s : Str) : List Str :=
  (s.splitOnP isWs).filter (fun l => !(l.isEmpty))

/-- Split at the first occurrence of the (non-empty) separator `sep`
(model of Rust `str::split_once` / `str::find`): returns the part before
and the part after, or `none` when `sep` does not occur. -/
def splitOnceL (sep : Str) : Str → Option (Str × Str)
  | [] => none
  | c :: rest =>
    if sep.isPrefixOf (c :: rest) then some ([], (c :: rest).drop sep.length)
    else
      match splitOnceL sep rest with
      | some (a, b) => some (c :: a, b)
      | none => none

/-- Whether `sep` occurs as a contiguous substring of `s`. -/
def hasSub (sep s : Str) : Bool := (splitOnceL sep s).isSome

/-- Fuelled repeated splitting at `sep` (fuel bounds the recursion;
`s.length + 1` is always enough for a non-empty separator). -/
def splitFullAux (sep : Str) : Nat → Str → List Str
  | 0, s => [s]
  | n + 1, s =>
    match splitOnceL sep s with
    | none => [s]
    | some (a, b) => a :: splitFullAux sep n b

/-- Model of Rust `str::split(sep)` for a string separator. -/
def splitFull (sep s : Str) : List Str := splitFullAux sep (s.length + 1) s

/-- Model of Rust `str::split_terminator(sep)`: as `split`, but a
trailing empty piece is dropped. -/
def splitTerminator (sep s : Str) : List Str :=
  let parts := splitFull sep s
  if parts.getLast? = some [] then parts.dropLast else parts

/-- Hex digit value, if any. -/
def hexVal (c : Char) : Option Nat :=
  if 48 ≤ c.toNat ∧ c.toNat ≤ 57 then some (c.toNat - 48)
  else if 97 ≤ c.toNat ∧ c.toNat ≤ 102 then some (c.toNat - 87)
  else if 65 ≤ c.toNat ∧ c.toNat ≤ 70 then some (c.toNat - 55)
  else none

/-- Model of `url_escape::decode`: decode every valid `%XX` hex escape,
leave malformed escapes untouched. -/
def percentDecode : Str → Str
  | '%' :: a :: b :: rest =>
    match hexVal a, hexVal b with
    | some x, some y => Char.ofNat (16 * x + y) :: percentDecode rest
    | _, _ => '%' :: percentDecode (a :: b :: rest)
  | c :: rest => c :: percentDecode rest
  | [] => []

def digitChar (n : Nat) : Char := Char.ofNat (48 + n)

def natDecimalAux : Nat → Nat → Str
  | 0, _ => []
  | fuel + 1, n =>
    if n < 10 then [digitChar n]
    else natDecimalAux fuel (n / 10) ++ [digitChar (n % 10)]

/-- Decimal representation of a natural number (model of Rust
`usize::to_string`). -/
def natDecimal (n : Nat) : Str := natDecimalAux (n + 1) n

/-- UTF-8 encoding of one char. -/
def utf8Char (c : Char) : List Nat :=
  let n := c.toNat
  if n < 0x80 then [n]
  else if n < 0x800 then [0xC0 + n / 64, 0x80 + n % 64]
  else if n < 0x10000 then [0xE0 + n / 4096, 0x80 + n / 64 % 64, 0x80 + n % 64]
  else [0xF0 + n / 262144, 0x80 + n / 4096 % 64, 0x80 + n / 64 % 64, 0x80 + n % 64]

/-- UTF-8 encoding of a string (model of Rust `String::into_bytes`). -/
def utf8Str (s : Str) : List Nat := (s.map utf8Char).flatten

def crlf : Str := "\r\n".toList

/-! ## `src/http/request.rs` -/

inductive Version
  | v1_1
  | v2_0
deriving DecidableEq

/-- `Version::from_str` (`FromStr` impl, exact token match). -/
def Version.from_str (s : Str) : Option Version :=
  if s = "HTTP/1.1".toList then some .v1_1
  else if s = "HTTP/2.0".toList then some .v2_0
  else none

/-- `Version`'s `Display` impl. -/
def Version.toStr : Version → Str
  | .v1_1 => "HTTP/1.1".toList
  | .v2_0 => "HTTP/2.0".toList

inductive Method
  | get | post | put | delete | head | options | trace | connect | patch
deriving DecidableEq

/-- `Method::from_str`: case-insensitive match against the method set. -/
def Method.from_str (s : Str) : Option Method :=
  let u := asciiUpper s
  if u = "GET".toList then some .get
  else if u = "POST".toList then some .post
  else if u = "PUT".toList then some .put
  else if u = "DELETE".toList then some .delete
  else if u = "HEAD".toList then some .head
  else if u = "OPTIONS".toList then some .options
  else if u = "TRACE".toList then some .trace
  else if u = "CONNECT".toList then some .connect
  else if u = "PATCH".toList then some .patch
  else none

structure Route where
  path : Str
deriving DecidableEq

/-- `Route::new`: `path.trim_start_matches('/')`, i.e. remove every
leading `'/'` (Rust `trim_start_matches` removes the pattern
repeatedly). -/
def Route.new (path : Str) : Route :=
  ⟨path.dropWhile (fun c => c == '/')⟩

/-- `HashMap::insert`, observed as an association list: any previous
entry for the key is replaced by the new one. -/
def mapInsert (k v : Str) (m : List (Str × Str)) : List (Str × Str) :=
  m.filter (fun e => !(e.1 == k)) ++ [(k, v)]

/-- `HashMap::get`. -/
def mapGet (k : Str) (m : List (Str × Str)) : Option Str :=
  (m.find? (fun e => e.1 == k)).map (fun e => e.2)

structure HttpRequest where
  method : Method
  route : Route
  version : Version
  headers : List (Str × Str)
  request_body : Str
deriving DecidableEq

/-- Loop body of `HttpRequest::parse_headers`: consume `\r\n`-terminated
lines until an empty line; a line without a `':'` fails the whole
parse. -/
def parseHeaderLines : List Str → List (Str × Str) → Option (List (Str × Str))
  | [], acc => some acc
  | l :: rest, acc =>
    if l.isEmpty then some acc
    else
      match splitOnceL [':'] l with
      | none => none
      | some (k, v) => parseHeaderLines rest (mapInsert (trimWs k) (trimWs v) acc)

/-- `HttpRequest::parse_headers`: split the buffer at the first `\r\n`,
then scan the remainder's `\r\n`-terminated lines. -/
def HttpRequest.parse_headers (request : Str) : Option (List (Str × Str)) :=
  match splitOnceL crlf request with
  | none => none
  | some (_, headerStr) => parseHeaderLines (splitTerminator crlf headerStr) []

/-- `HttpRequest::new`: first line must have exactly three
whitespace-separated tokens; method and version tokens must parse;
headers must parse; the body is everything after the first `\r\n\r\n`
(empty when there is none). -/
def HttpRequest.new (request : Str) : Option HttpRequest :=
  match (rustLines request).head? with
  | none => none
  | some firstLine =>
    match splitWs firstLine with
    | [m, p, v] =>
      match Method.from_str m with
      | none => none
      | some method =>
        match Version.from_str v with
        | none => none
        | some version =>
          match HttpRequest.parse_headers request with
          | none => none
          | some headers =>
            let bodyStart :=
              match splitOnceL (crlf ++ crlf) request with
              | some (a, _) => a.length + 4
              | none => request.length
            some ⟨method, Route.new p, version, headers, request.drop bodyStart⟩
    | _ => none

/-! ## `src/http/response.rs` -/

inductive ResponseStatus
  | ok | notFound | badRequest | forbidden | internalServerError
deriving DecidableEq

def ResponseStatus.code : ResponseStatus → Nat
  | .ok => 200
  | .notFound => 404
  | .badRequest => 400
  | .forbidden => 403
  | .internalServerError => 500

def ResponseStatus.reason : ResponseStatus → Str
  | .ok => "OK".toList
  | .notFound => "Not Found".toList
  | .badRequest => "Bad Request".toList
  | .forbidden => "Forbidden".toList
  | .internalServerError => "Internal Server Error".toList

/-- `ResponseStatus`'s `Display` impl: `"<code> <reason>"`. -/
def statusDisplay (st : ResponseStatus) : Str :=
  natDecimal st.code ++ " ".toList ++ st.reason

structure HttpResponse where
  version : Version
  status : ResponseStatus
  headers : List (Str × Str)
  response_body : List Nat
  current_path : Str
deriving DecidableEq

/-- `HttpResponse::add_header`: store under the lowercased key,
overwriting any previous value. -/
def HttpResponse.add_header (r : HttpResponse) (key value : Str) : HttpResponse :=
  { r with headers := mapInsert (asciiLower key) value r.headers }

/-- `HttpResponse::new`: strip the path's leading slashes, start with no
headers and an empty body, then add `Accept-Ranges: bytes`. -/
def HttpResponse.new (version : Version) (status : ResponseStatus)
    (current_path : Str) : HttpResponse :=
  let clean_path := current_path.dropWhile (fun c => c == '/')
  (HttpResponse.mk version status [] [] clean_path).add_header
    ("Accept-Ranges".toList) ("bytes".toList)

/-- `HttpResponse::set_body`: replace the body, then add a
`Content-Length` header carrying the body's byte count. -/
def HttpResponse.set_body (r : HttpResponse) (body : List Nat) : HttpResponse :=
  let r2 := { r with response_body := body }
  r2.add_header ("Content-Length".toList) (natDecimal r2.response_body.length)

/-- One serialized header line, `"<key>: <value>\r\n"`. -/
def headerLine (e : Str × Str) : Str := e.1 ++ ": ".toList ++ e.2 ++ crlf

/-- `HttpResponse::to_string`: status line, header lines, blank line,
raw body bytes. -/
def HttpResponse.to_string (r : HttpResponse) : List Nat :=
  utf8Str (Version.toStr r.version ++ " ".toList ++ statusDisplay r.status ++ crlf
    ++ (r.headers.map headerLine).flatten ++ crlf) ++ r.response_body

/-! ## `src/main.rs`: filesystem model and handlers

Absolute paths are lists of components under the filesystem root `/`.
`Fs.stat` gives the kind of an existing canonical path (no `.`/`..`
components); `canonicalize` is `realpath` on this symlink-free
filesystem.  `readDir`, `readFile`, `sniff` and `errText` model
`fs::read_dir`, `fs::read`, `infer::get` and `io::Error`'s `Display`
text (environment data the server only passes through). -/

inductive FKind
  | dir | file | other
deriving DecidableEq

inductive IoErr
  | permissionDenied | notFound | otherErr
deriving DecidableEq

structure Fs where
  stat : List Str → Option FKind
  readDir : List Str → Except IoErr (List Str)
  readFile : List Str → Except IoErr (List Nat)
  sniff : List Nat → Option Str
  errText : IoErr → Str

/-- Resolve the components of a path left to right from the root:
skip `.`, step to the parent on `..` (the root is its own parent), and
require every other resolved step to exist. -/
def canonAux (fs : Fs) : List Str → List Str → Option (List Str)
  | cur, [] => some cur
  | cur, seg :: rest =>
    if seg = ".".toList then canonAux fs cur rest
    else if seg = "..".toList then canonAux fs cur.dropLast rest
    else
      let c := cur ++ [seg]
      if (fs.stat c).isSome then canonAux fs c rest else none

/-- `std::fs::canonicalize` (realpath) on the model filesystem. -/
def canonicalize (fs : Fs) (p : List Str) : Option (List Str) :=
  canonAux fs [] p

/-- `Path::exists` (resolves the path, like `stat`). -/
def pathExists (fs : Fs) (p : List Str) : Bool := (canonicalize fs p).isSome

/-- `Path::is_dir`. -/
def isDirPath (fs : Fs) (p : List Str) : Bool :=
  match canonicalize fs p with
  | some c => fs.stat c == some .dir
  | none => false

/-- `Path::is_file`. -/
def isFilePath (fs : Fs) (p : List Str) : Bool :=
  match canonicalize fs p with
  | some c => fs.stat c == some .file
  | none => false

/-- `Path::parent`: drop the final component as written; the root `/`
has no parent. -/
def parentPath : List Str → Option (List Str)
  | [] => none
  | xs => some xs.dropLast

/-- `is_safe_path` from `src/main.rs`: canonicalize the root; if the
requested path exists require its canonical form to start with the
canonical root, otherwise apply the same check to the parent's
canonical form; a path with no parent is unsafe; canonicalization
failure is an I/O error (`none`). -/
def is_safe_path (fs : Fs) (root_dir requested_path : List Str) : Option Bool :=
  match canonicalize fs root_dir with
  | none => none
  | some canonicalized_root =>
    if !(pathExists fs requested_path) then
      match parentPath requested_path with
      | some parent =>
        match canonicalize fs parent with
        | none => none
        | some canonicalized_parent =>
          some (canonicalized_root.isPrefixOf canonicalized_parent)
      | none => some false
    else
      match canonicalize fs requested_path with
      | none => none
      | some canonicalized_requested =>
        some (canonicalized_root.isPrefixOf canonicalized_requested)

/-- `Path::to_string_lossy` for our absolute paths. -/
def pathDisplay (p : List Str) : Str :=
  '/' :: List.intercalate ("/".toList) p

/-- Components of a relative path string: split at `/`; empty and `.`
components are dropped (Rust `Path::components` normalization). -/
def toSegments (s : Str) : List Str :=
  (splitChar '/' s).filter (fun l => !(l.isEmpty) && !(l == ".".toList))

/-- The path `handle_get_request` builds:
`root_dir.join(decode(route_path).trim_start_matches('/'))`. -/
def getRequestedPath (root_dir : List Str) (routePath : Str) : List Str :=
  root_dir ++ toSegments ((percentDecode routePath).dropWhile (fun c => c == '/'))

/-- The static HTML/CSS prelude of the directory-listing page
(the raw string literal in `handle_directory_listing`). -/
def listingHtmlHead : String := "<!DOCTYPE html>
<html lang=\"en\">
<head>
    <meta charset=\"utf-8\">
    <meta name=\"viewport\" content=\"width=device-width, initial-scale=1.0\">
    <title>Directory listing</title>
    <style>
    /* Insert the CSS code here */
    body \x7b
        font-family: Arial, sans-serif;
        line-height: 1.6;
        color: #333;
        max-width: 800px;
        margin: 0 auto;
        padding: 20px;
        background-color: #f4f4f4;
    \x7d
    h1 \x7b
        color: #2c3e50;
        border-bottom: 2px solid #3498db;
        padding-bottom: 10px;
    \x7d
    ul \x7b
        list-style-type: none;
        padding: 0;
    \x7d
    li \x7b
        margin-bottom: 10px;
        background-color: #fff;
        border-radius: 4px;
        overflow: hidden;
    \x7d
    li a \x7b
        display: block;
        padding: 10px 15px;
        color: #2980b9;
        text-decoration: none;
        transition: background-color 0.3s ease;
    \x7d
    li a:hover \x7b
        background-color: #ecf0f1;
    \x7d
    .parent-dir \x7b
        font-weight: bold;
    \x7d
    .file-icon, .folder-icon \x7b
        margin-right: 10px;
    \x7d
    .file-icon::before \x7b
        content: \"📄\";
    \x7d
    .folder-icon::before \x7b
        content: \"📁\";
    \x7d
    </style>
</head>
<body>"

/-- `handle_directory_listing`: 200 page listing the entries, with the
status downgraded to 403/500 when reading the directory fails. -/
def handle_directory_listing (fs : Fs) (request : HttpRequest)
    (dir_path : List Str) : HttpResponse :=
  let response := HttpResponse.new request.version .ok (pathDisplay dir_path)
  let content := listingHtmlHead.toList
    ++ "<h1>Directory listing for ".toList ++ pathDisplay dir_path ++ "</h1>".toList
    ++ "<ul>".toList
  let content := content ++
    (match parentPath dir_path with
     | some parent =>
       "<li><a href=\"".toList ++ pathDisplay parent
         ++ "\" class=\"parent-dir\"><span class=\"folder-icon\"></span>Parent Directory</a></li>".toList
     | none => [])
  match fs.readDir dir_path with
  | .ok entries =>
    let content := content ++ (entries.map (fun name =>
      let icon := if isDirPath fs (dir_path ++ [name]) then "folder-icon".toList
                  else "file-icon".toList
      "<li><a href=\"".toList ++ name ++ "\"><span class=\"".toList ++ icon
        ++ "\"></span>".toList ++ name ++ "</a></li>".toList)).flatten
    let content := content ++ "</ul></body></html>".toList
    (response.add_header ("Content-Type".toList) ("text/html".toList)).set_body
      (utf8Str content)
  | .error e =>
    let st := match e with
      | .permissionDenied => ResponseStatus.forbidden
      | _ => ResponseStatus.internalServerError
    let errHtml := match e with
      | .permissionDenied => "<p>Access denied: ".toList ++ fs.errText e ++ "</p>".toList
      | _ => "<p>An error occurred: ".toList ++ fs.errText e ++ "</p>".toList
    let content := content ++ errHtml ++ "</ul></body></html>".toList
    (({ response with status := st }).add_header ("Content-Type".toList)
      ("text/html".toList)).set_body (utf8Str content)

/-- `Path::extension` of a file name: the part after the final `.`,
except when there is no `.` or the name is a lone leading-dot name. -/
def extOf (name : Str) : Option Str :=
  match splitChar '.' name with
  | [] => none
  | [_] => none
  | p :: rest => if p.isEmpty ∧ rest.length = 1 then none else rest.getLast?

def pathExtension (p : List Str) : Option Str :=
  match p.getLast? with
  | none => none
  | some name => extOf name

/-- The extension-based MIME fallback table in `handle_file_request`. -/
def extFallback (e : Option Str) : Str :=
  if e = some ("html".toList) ∨ e = some ("htm".toList) then "text/html".toList
  else if e = some ("css".toList) then "text/css".toList
  else if e = some ("js".toList) then "application/javascript".toList
  else if e = some ("json".toList) then "application/json".toList
  else if e = some ("txt".toList) then "text/plain".toList
  else if e = some ("png".toList) then "image/png".toList
  else if e = some ("jpg".toList) ∨ e = some ("jpeg".toList) then "image/jpeg".toList
  else if e = some ("gif".toList) then "image/gif".toList
  else if e = some ("svg".toList) then "image/svg+xml".toList
  else if e = some ("pdf".toList) then "application/pdf".toList
  else if e = some ("mp4".toList) then "video/mp4".toList
  else if e = some ("webm".toList) then "video/webm".toList
  else if e = some ("ogg".toList) then "video/ogg".toList
  else "application/octet-stream".toList

/-- `handle_file_request`: read the file; on success 200 with a sniffed
or extension-based content type; on failure 403/404/500 with a
plain-text body. -/
def handle_file_request (fs : Fs) (request : HttpRequest)
    (file_path : List Str) : HttpResponse :=
  let response := HttpResponse.new request.version .ok (pathDisplay file_path)
  match fs.readFile file_path with
  | .ok contents =>
    let content_type := match fs.sniff contents with
      | some t => t
      | none => extFallback (pathExtension file_path)
    (response.add_header ("Content-Type".toList) content_type).set_body contents
  | .error IoErr.permissionDenied =>
    ({ response with status := .forbidden }).set_body
      (utf8Str ("Access denied: ".toList ++ fs.errText .permissionDenied))
  | .error IoErr.notFound =>
    ({ response with status := .notFound }).set_body (utf8Str ("File not found".toList))
  | .error IoErr.otherErr =>
    ({ response with status := .internalServerError }).set_body
      (utf8Str ("An error occurred: ".toList ++ fs.errText .otherErr))

/-- `handle_post_request`: 200 HTML page echoing the request body. -/
def handle_post_request (request : HttpRequest) : HttpResponse :=
  let response := HttpResponse.new request.version .ok request.route.path
  let body := "<html><body><h1>Received POST request</h1><p>Body: ".toList
    ++ request.request_body ++ "</p></body></html>".toList
  (response.add_header ("Content-Type".toList) ("text/html".toList)).set_body
    (utf8Str body)

/-- `handle_get_request`: decode and join the route path, then dispatch
on the safety check and the kind of the requested path. -/
def handle_get_request (fs : Fs) (request : HttpRequest)
    (root_dir : List Str) : HttpResponse :=
  let requested_path := getRequestedPath root_dir request.route.path
  match is_safe_path fs root_dir requested_path with
  | some true =>
    if isDirPath fs requested_path then
      handle_directory_listing fs request requested_path
    else if isFilePath fs requested_path then
      handle_file_request fs request requested_path
    else HttpResponse.new request.version .notFound ("Not Found".toList)
  | some false => HttpResponse.new request.version .forbidden ("Forbidden".toList)
  | none => HttpResponse.new request.version .notFound ("Not Found".toList)

/-- The method dispatch inside `handle_client`. -/
def dispatchRequest (fs : Fs) (root_dir : List Str)
    (request : HttpRequest) : HttpResponse :=
  match request.method with
  | .get => handle_get_request fs request root_dir
  | .post => handle_post_request request
  | _ => HttpResponse.new request.version .badRequest request.route.path

/-- `handle_client` after the socket read: parse, dispatch, or answer
400 with the fixed placeholder path. -/
def handle_client (fs : Fs) (root_dir : List Str) (buffer : Str) : HttpResponse :=
  match HttpRequest.new buffer with
  | some request => dispatchRequest fs root_dir request
  | none => HttpResponse.new .v1_1 .badRequest ("Invalid Request".toList)

/-! ## A small concrete filesystem used for witnesses and counterexamples -/

def demoPaths : List (List Str × FKind) :=
  [([], .dir),
   (["srv".toList], .dir),
   (["srv".toList, "index.html".toList], .file),
   (["etc".toList], .dir),
   (["etc".toList, "passwd".toList], .file)]

def demoFs : Fs where
  stat := fun p => (demoPaths.find? (fun e => e.1 == p)).map (fun e => e.2)
  readDir := fun p =>
    if p == ["srv".toList] then .ok ["index.html".toList] else .error .otherErr
  readFile := fun p =>
    if p == ["srv".toList, "index.html".toList] then
      .ok (utf8Str ("<html></html>".toList))
    else .error .notFound
  sniff := fun _ => none
  errText := fun _ => []

def demoRoot : List Str := ["srv".toList]

/-! ## Reachable response states

`ReachableResp` closes the constructor under every mutation the
handlers perform on a response: `add_header`, `set_body`, and direct
assignment of the `status` field.  `ReachableKeepAR` is the same but
restricts `add_header` to names other than `accept-ranges`, matching
how the handlers only ever add `Content-Type` and `Content-Length`. -/

inductive ReachableResp : HttpResponse → Prop
  | base (v : Version) (st : ResponseStatus) (p : Str) :
      ReachableResp (HttpResponse.new v st p)
  | addHeader (r : HttpResponse) (k v : Str) :
      ReachableResp r → ReachableResp (r.add_header k v)
  | setBody (r : HttpResponse) (b : List Nat) :
      ReachableResp r → ReachableResp (r.set_body b)
  | setStatus (r : HttpResponse) (st : ResponseStatus) :
      ReachableResp r → ReachableResp { r with status := st }

inductive ReachableKeepAR : HttpResponse → Prop
  | base (v : Version) (st : ResponseStatus) (p : Str) :
      ReachableKeepAR (HttpResponse.new v st p)
  | addHeader (r : HttpResponse) (k v : Str) :
      ReachableKeepAR r → asciiLower k ≠ "accept-ranges".toList →
      ReachableKeepAR (r.add_header k v)
  | setBody (r : HttpResponse) (b : List Nat) :
      ReachableKeepAR r → ReachableKeepAR (r.set_body b)
  | setStatus (r : HttpResponse) (st : ResponseStatus) :
      ReachableKeepAR r → ReachableKeepAR { r with status := st }

/-! ## Helper lemmas about the header association map -/

theorem find?_filter_self (k : Str) (m : List (Str × Str)) :
    (m.filter (fun e => !(e.1 == k))).find? (fun e => e.1 == k) = none := by
  induction m with
  | nil => simp
  | cons a t ih =>
    by_cases ha : a.1 = k
    · simp [List.filter_cons, ha, ih]
    · simp [List.filter_cons, ha, ih]

theorem find?_filter_ne (k k2 : Str) (m : List (Str × Str)) (h : k ≠ k2) :
    (m.filter (fun e => !(e.1 == k2))).find? (fun e => e.1 == k) =
      m.find? (fun e => e.1 == k) := by
  induction m with
  | nil => simp
  | cons a t ih =>
    by_cases ha2 : a.1 = k2
    · have ha : ¬ a.1 = k := fun hk => h (hk ▸ ha2 ▸ rfl)
      have h1 : List.filter (fun e => !(e.1 == k2)) (a :: t) =
          List.filter (fun e => !(e.1 == k2)) t := by
        simp [List.filter_cons, ha2]
      rw [h1, ih, List.find?_cons_of_neg _ (by simp [ha])]
    · by_cases ha : a.1 = k
      · simp [List.filter_cons, ha2, ha, h]
      · simp [List.filter_cons, ha2, ha, ih]

theorem find?_mapInsert_self (k v : Str) (m : List (Str × Str)) :
    (mapInsert k v m).find? (fun e => e.1 == k) = some (k, v) := by
  simp [mapInsert, find?_filter_self]

theorem find?_mapInsert_ne (k k2 v : Str) (m : List (Str × Str)) (h : k ≠ k2) :
    (mapInsert k2 v m).find? (fun e => e.1 == k) = m.find? (fun e => e.1 == k) := by
  have hk2 : ¬ k2 = k := fun hk => h hk.symm
  simp [mapInsert, find?_filter_ne k k2 m h, hk2]

theorem mapGet_mapInsert_self (k v : Str) (m : List (Str × Str)) :
    mapGet k (mapInsert k v m) = some v := by
  simp [mapGet, find?_mapInsert_self]

theorem mapGet_mapInsert_ne (k k2 v : Str) (m : List (Str × Str)) (h : k ≠ k2) :
    mapGet k (mapInsert k2 v m) = mapGet k m := by
  simp [mapGet, find?_mapInsert_ne k k2 v m h]

/-! ## Claim theorems -/

/-- C4 counterexample: for the path token `//a` (two leading slashes)
the claim demands a route path with one leading slash (`/a`), but Route
construction yields `a` with none. -/
theorem C4_counterexample :
    (Route.new ("//a".toList)).path = "a".toList ∧
    (Route.new ("//a".toList)).path ≠ "/a".toList := by decide

/-- C4 (amended): Route construction strips every leading slash
character, not just one: a path token made of n leading slashes
followed by a suffix that does not start with a slash yields exactly
that suffix (zero leading slashes remain). -/
theorem C4_route_strips_all_slashes (n : Nat) (p : Str)
    (h : p.head? ≠ some '/') :
    (Route.new (List.replicate n '/' ++ p)).path = p := by
  induction n with
  | zero =>
    show (List.replicate 0 '/' ++ p).dropWhile (fun c => c == '/') = p
    cases p with
    | nil => rfl
    | cons c t =>
      have hc : ¬ c = '/' := by simpa using h
      simp [List.dropWhile_cons, hc]
  | succ n ih =>
    have hr : List.replicate (n + 1) '/' ++ p = '/' :: (List.replicate n '/' ++ p) := by
      simp [List.replicate_succ]
    show (List.replicate (n + 1) '/' ++ p).dropWhile (fun c => c == '/') = p
    rw [hr, List.dropWhile_cons_of_pos (by decide)]
    exact ih

/-- C4 witness: the amended theorem applied to the token `//a`. -/
theorem C4_witness :
    (Route.new (List.replicate 2 '/' ++ "a".toList)).path = "a".toList :=
  C4_route_strips_all_slashes 2 ("a".toList) (by decide)

/-- C6: after `set_body` with bytes `b` the body is exactly `b` and the
header map carries a `content-length` entry holding the decimal
representation of `b`'s length, regardless of the previous body and
headers of the response. -/
theorem C6_set_body_content_length (r : HttpResponse) (b : List Nat) :
    (r.set_body b).response_body = b ∧
    mapGet ("content-length".toList) (r.set_body b).headers =
      some (natDecimal b.length) := by
  refine ⟨rfl, ?_⟩
  have hk : asciiLower ("Content-Length".toList) = "content-length".toList := by
    decide
  show mapGet ("content-length".toList)
      (mapInsert (asciiLower ("Content-Length".toList))
        (natDecimal b.length) r.headers) = some (natDecimal b.length)
  rw [hk, mapGet_mapInsert_self]

theorem toNat_ofNat_valid (n : Nat) (h : n.isValidChar) :
    (Char.ofNat n).toNat = n := by
  rw [Char.ofNat, dif_pos h]
  rfl

theorem charLower_idem (c : Char) : charLower (charLower c) = charLower c := by
  by_cases h : 65 ≤ c.toNat ∧ c.toNat ≤ 90
  · have h1 : charLower c = Char.ofNat (c.toNat + 32) := by
      rw [charLower, if_pos h]
    have hv : Nat.isValidChar (c.toNat + 32) := Or.inl (by omega)
    have ht : (Char.ofNat (c.toNat + 32)).toNat = c.toNat + 32 :=
      toNat_ofNat_valid _ hv
    rw [h1, charLower, ht, if_neg (by omega)]
  · have h1 : charLower c = c := by rw [charLower, if_neg h]
    rw [h1]
    exact h1

theorem asciiLower_idem (s : Str) : asciiLower (asciiLower s) = asciiLower s := by
  simp [asciiLower, List.map_map, Function.comp_def, charLower_idem]

theorem keys_lower_mapInsert (k v : Str) (m : List (Str × Str))
    (hm : ∀ e ∈ m, asciiLower e.1 = e.1) :
    ∀ e ∈ mapInsert (asciiLower k) v m, asciiLower e.1 = e.1 := by
  intro e he
  rcases List.mem_append.1 he with h1 | h1
  · exact hm e (List.mem_of_mem_filter h1)
  · rcases List.mem_singleton.1 h1 with rfl
    exact asciiLower_idem k

theorem countP_mapInsert_self (k v : Str) (m : List (Str × Str)) :
    (mapInsert k v m).countP (fun e => e.1 == k) = 1 := by
  rw [mapInsert, List.countP_append]
  have h0 : (m.filter (fun e => !(e.1 == k))).countP (fun e => e.1 == k) = 0 := by
    rw [List.countP_eq_zero]
    intro a ha
    have := List.of_mem_filter ha
    simpa using this
  simp [h0, List.countP_cons]

/-- C8: header keys in a reachable response are always stored
lowercase, and adding a header twice under the same name in any letter
case overwrites: the final header map holds exactly one entry for the
lowercased name, carrying the last value written, and the serialized
header lines include exactly that entry's line. -/
theorem C8_lowercase_keys_and_overwrite :
    (∀ r, ReachableResp r → ∀ e ∈ r.headers, asciiLower e.1 = e.1) ∧
    (∀ (r : HttpResponse) (k v k2 v2 : Str), asciiLower k2 = asciiLower k →
      mapGet (asciiLower k) ((r.add_header k v).add_header k2 v2).headers =
        some v2 ∧
      ((r.add_header k v).add_header k2 v2).headers.countP
        (fun e => e.1 == asciiLower k) = 1 ∧
      headerLine (asciiLower k, v2) ∈
        ((r.add_header k v).add_header k2 v2).headers.map headerLine) := by
  constructor
  · intro r hr
    induction hr with
    | base v st p =>
      exact keys_lower_mapInsert _ _ _ (by intro e he; cases he)
    | addHeader r k v hr ih => exact keys_lower_mapInsert _ _ _ ih
    | setBody r b hr ih => exact keys_lower_mapInsert _ _ _ ih
    | setStatus r st hr ih => exact ih
  · intro r k v k2 v2 h
    have hh : ((r.add_header k v).add_header k2 v2).headers =
        mapInsert (asciiLower k) v2 ((r.add_header k v).headers) := by
      simp only [HttpResponse.add_header, h]
    refine ⟨?_, ?_, ?_⟩
    · rw [hh, mapGet_mapInsert_self]
    · rw [hh, countP_mapInsert_self]
    · rw [hh]
      exact List.mem_map_of_mem _
        (List.mem_append_right _ (List.mem_singleton_self _))

/-- C8 witness: both parts at concrete inputs: the base response is
all-lowercase-keyed, and re-adding `X-A` (as `x-A`) leaves one entry
with the last value. -/
theorem C8_witness :
    (∀ e ∈ (HttpResponse.new .v1_1 .ok ("x".toList)).headers,
      asciiLower e.1 = e.1) ∧
    mapGet (asciiLower ("X-A".toList))
      ((((HttpResponse.new .v1_1 .ok ("x".toList))).add_header
          ("X-A".toList) ("1".toList)).add_header
          ("x-A".toList) ("2".toList)).headers = some ("2".toList) :=
  ⟨C8_lowercase_keys_and_overwrite.1 _ (ReachableResp.base _ _ _),
   (C8_lowercase_keys_and_overwrite.2 (HttpResponse.new .v1_1 .ok ("x".toList))
      ("X-A".toList) ("1".toList) ("x-A".toList) ("2".toList) (by decide)).1⟩

theorem utf8Str_append (a b : Str) : utf8Str (a ++ b) = utf8Str a ++ utf8Str b := by
  simp [utf8Str]

theorem utf8Str_infix {a b : Str} (h : a <:+: b) : utf8Str a <:+: utf8Str b := by
  rcases h with ⟨s, t, rfl⟩
  exact ⟨utf8Str s, utf8Str t, by simp [utf8Str_append]⟩

theorem headerLine_infix_to_string (r : HttpResponse) (e : Str × Str)
    (he : e ∈ r.headers) :
    utf8Str (headerLine e) <:+: r.to_string := by
  have h1 : headerLine e <:+: (r.headers.map headerLine).flatten :=
    List.infix_of_mem_flatten (List.mem_map_of_mem _ he)
  have h2 : headerLine e <:+:
      (Version.toStr r.version ++ " ".toList ++ statusDisplay r.status ++ crlf
        ++ (r.headers.map headerLine).flatten ++ crlf) := by
    rcases h1 with ⟨s, t, hst⟩
    exact ⟨Version.toStr r.version ++ " ".toList ++ statusDisplay r.status
        ++ crlf ++ s, t ++ crlf, by rw [← hst]; simp⟩
  rcases utf8Str_infix h2 with ⟨s, t, hst⟩
  exact ⟨s, t ++ r.response_body, by rw [HttpResponse.to_string, ← hst]; simp⟩

/-- C7: every response reachable from construction via the
handler-used operations (`add_header` with names other than
`accept-ranges`, `set_body`, status assignment) still maps
`accept-ranges` to `bytes`, so its serialization contains the header
line `accept-ranges: bytes\r\n`. -/
theorem C7_accept_ranges_always_present (r : HttpResponse)
    (h : ReachableKeepAR r) :
    mapGet ("accept-ranges".toList) r.headers = some ("bytes".toList) ∧
    utf8Str (headerLine ("accept-ranges".toList, "bytes".toList)) <:+:
      r.to_string := by
  have hget : mapGet ("accept-ranges".toList) r.headers =
      some ("bytes".toList) := by
    induction h with
    | base v st p =>
      have hk : asciiLower ("Accept-Ranges".toList) = "accept-ranges".toList := by
        decide
      show mapGet ("accept-ranges".toList)
          (mapInsert (asciiLower ("Accept-Ranges".toList)) ("bytes".toList) []) =
        some ("bytes".toList)
      rw [hk, mapGet_mapInsert_self]
    | addHeader r k v hr hk ih =>
      show mapGet ("accept-ranges".toList)
          (mapInsert (asciiLower k) v r.headers) = some ("bytes".toList)
      rw [mapGet_mapInsert_ne _ _ _ _ (fun he => hk he.symm)]
      exact ih
    | setBody r b hr ih =>
      show mapGet ("accept-ranges".toList)
          (mapInsert (asciiLower ("Content-Length".toList)) _ r.headers) =
        some ("bytes".toList)
      rw [mapGet_mapInsert_ne _ _ _ _ (by decide)]
      exact ih
    | setStatus r st hr ih => exact ih
  refine ⟨hget, ?_⟩
  have hfind := hget
  rw [mapGet] at hfind
  rcases hof : r.headers.find? (fun e => e.1 == "accept-ranges".toList) with _ | e
  · rw [hof] at hfind
    cases hfind
  · rw [hof] at hfind
    have hmem := List.mem_of_find?_eq_some hof
    have hpred := List.find?_some hof
    have hk : e.1 = "accept-ranges".toList := by simpa using hpred
    have hv : e.2 = "bytes".toList := by
      simpa using hfind
    have : e = ("accept-ranges".toList, "bytes".toList) := by
      cases e
      simp_all
    rw [← this]
    exact headerLine_infix_to_string r e hmem

/-- C7 witness: the invariant at a concrete reachable response (built
by `new`, then `add_header Content-Type`, then `set_body`). -/
theorem C7_witness :
    mapGet ("accept-ranges".toList)
      (((HttpResponse.new .v1_1 .ok ("x".toList)).add_header
          ("Content-Type".toList) ("text/html".toList)).set_body
          [104, 105]).headers = some ("bytes".toList) ∧
    utf8Str (headerLine ("accept-ranges".toList, "bytes".toList)) <:+:
      (((HttpResponse.new .v1_1 .ok ("x".toList)).add_header
          ("Content-Type".toList) ("text/html".toList)).set_body
          [104, 105]).to_string :=
  C7_accept_ranges_always_present _
    (ReachableKeepAR.setBody _ _
      (ReachableKeepAR.addHeader _ _ _
        (ReachableKeepAR.base _ _ _) (by decide)))

theorem parseHeaderLines_none_of_bad (ls : List Str) :
    ∀ acc, (∃ l ∈ ls.takeWhile (fun x => !(x.isEmpty)),
      splitOnceL [':'] l = none) →
    parseHeaderLines ls acc = none := by
  induction ls with
  | nil =>
    intro acc h
    rcases h with ⟨l, hl, _⟩
    simp at hl
  | cons a t ih =>
    intro acc h
    by_cases ha : a.isEmpty
    · rcases h with ⟨l, hl, _⟩
      rw [List.takeWhile_cons_of_neg (by simp [ha])] at hl
      simp at hl
    · rw [List.takeWhile_cons_of_pos (by simp [ha])] at h
      rcases h with ⟨l, hl, hbad⟩
      rcases List.mem_cons.1 hl with rfl | hl
      · rw [parseHeaderLines, if_neg (by simp [ha]), hbad]
      · rw [parseHeaderLines, if_neg (by simp [ha])]
        rcases hsp : splitOnceL [':'] a with _ | kv
        · rfl
        · exact ih _ ⟨l, hl, hbad⟩

theorem new_eq_none_of_parse_headers (s : Str)
    (h : HttpRequest.parse_headers s = none) : HttpRequest.new s = none := by
  unfold HttpRequest.new
  rw [h]
  split
  · rfl
  · split
    · split
      · rfl
      · split
        · rfl
        · rfl
    · rfl

/-- C5: request parsing fails whenever the first line does not split
into exactly three whitespace-separated tokens, and whenever some
header line before the first empty line contains no colon (the whole
request is rejected). -/
theorem C5_parse_failure_conditions :
    (∀ (s fl : Str), (rustLines s).head? = some fl →
      (splitWs fl).length ≠ 3 → HttpRequest.new s = none) ∧
    (∀ (s pre rest : Str), splitOnceL crlf s = some (pre, rest) →
      (∃ l ∈ (splitTerminator crlf rest).takeWhile (fun x => !(x.isEmpty)),
        splitOnceL [':'] l = none) →
      HttpRequest.new s = none) := by
  constructor
  · intro s fl hh hlen
    unfold HttpRequest.new
    split
    · rfl
    next fl2 hh2 =>
      rw [hh] at hh2
      rcases Option.some.inj hh2 with rfl
      split
      next m p v hsw =>
        exact absurd (by simp [hsw]) hlen
      next => rfl
  · intro s pre rest hsplit hbad
    apply new_eq_none_of_parse_headers
    unfold HttpRequest.parse_headers
    rw [hsplit]
    exact parseHeaderLines_none_of_bad _ _ hbad

/-- C5 witness: both failure conditions at concrete buffers: a first
line with two tokens, and a header line without a colon. -/
theorem C5_witness :
    HttpRequest.new ("GET /\r\n\r\n".toList) = none ∧
    HttpRequest.new ("GET / HTTP/1.1\r\nnocolon\r\n\r\n".toList) = none :=
  ⟨C5_parse_failure_conditions.1 _ ("GET /".toList) (by decide) (by decide),
   C5_parse_failure_conditions.2 _ ("GET / HTTP/1.1".toList)
     ("nocolon\r\n\r\n".toList) (by decide) (by decide)⟩

/-- C10: a raw buffer containing no CRLF sequence at all never parses,
because header parsing first splits the buffer at a CRLF, even when the
first line is a well-formed request line. -/
theorem C10_no_crlf_no_parse (s : Str) (h : hasSub crlf s = false) :
    HttpRequest.new s = none := by
  have h0 : splitOnceL crlf s = none := by
    rcases ho : splitOnceL crlf s with _ | p
    · rfl
    · rw [hasSub, ho] at h
      cases h
  apply new_eq_none_of_parse_headers
  unfold HttpRequest.parse_headers
  rw [h0]

/-- C10 witness: a well-formed request line with no CRLF fails to
parse. -/
theorem C10_witness : HttpRequest.new ("GET / HTTP/1.1".toList) = none :=
  C10_no_crlf_no_parse _ (by decide)

theorem route_of_new (s : Str) (req : HttpRequest)
    (h : HttpRequest.new s = some req) : ∃ p, req.route = Route.new p := by
  unfold HttpRequest.new at h
  split at h
  · cases h
  · split at h
    · split at h
      · cases h
      · split at h
        · cases h
        · split at h
          · cases h
          · exact ⟨_, by rw [← Option.some.inj h]⟩
    · cases h

/-- C9: for every parsed request whose method is neither GET nor POST,
the dispatched response has status 400 Bad Request, an empty body, and
a diagnostic path field equal to the request's route path, unmodified. -/
theorem C9_unsupported_method_400 (fs : Fs) (root : List Str) (s : Str)
    (req : HttpRequest) (h : HttpRequest.new s = some req)
    (hg : req.method ≠ Method.get) (hp : req.method ≠ Method.post) :
    (dispatchRequest fs root req).status = ResponseStatus.badRequest ∧
    (dispatchRequest fs root req).response_body = [] ∧
    (dispatchRequest fs root req).current_path = req.route.path := by
  have hd : dispatchRequest fs root req =
      HttpResponse.new req.version .badRequest req.route.path := by
    unfold dispatchRequest
    cases hm : req.method with
    | get => exact absurd hm hg
    | post => exact absurd hm hp
    | put => rfl
    | delete => rfl
    | head => rfl
    | options => rfl
    | trace => rfl
    | connect => rfl
    | patch => rfl
  rcases route_of_new s req h with ⟨p0, hroute⟩
  have hnp : req.route.path.dropWhile (fun c => c == '/') = req.route.path := by
    rw [hroute]
    exact List.dropWhile_idempotent (fun c => c == '/') p0
  refine ⟨by rw [hd]; rfl, by rw [hd]; rfl, ?_⟩
  rw [hd]
  show req.route.path.dropWhile (fun c => c == '/') = req.route.path
  exact hnp

/-- C9 witness: a parsed PUT request is answered 400 with empty body
and the route path as diagnostic path. -/
theorem C9_witness :
    (dispatchRequest demoFs demoRoot
      ⟨Method.put, ⟨"x".toList⟩, Version.v1_1, [], []⟩).status =
        ResponseStatus.badRequest ∧
    (dispatchRequest demoFs demoRoot
      ⟨Method.put, ⟨"x".toList⟩, Version.v1_1, [], []⟩).response_body = [] ∧
    (dispatchRequest demoFs demoRoot
      ⟨Method.put, ⟨"x".toList⟩, Version.v1_1, [], []⟩).current_path =
      (⟨Method.put, ⟨"x".toList⟩, Version.v1_1, [], []⟩ : HttpRequest).route.path :=
  C9_unsupported_method_400 demoFs demoRoot ("PUT /x HTTP/1.1\r\n\r\n".toList)
    ⟨Method.put, ⟨"x".toList⟩, Version.v1_1, [], []⟩ (by decide)
    (by decide) (by decide)

/-- C2: the GET handler's outcome is determined by the safety check:
Unsafe gives 403; a resolution error gives 404; Safe dispatches to the
directory-listing handler for a directory, to the file handler for a
regular file, and to a 404 response otherwise. -/
theorem C2_get_dispatch (fs : Fs) (root : List Str) (req : HttpRequest) :
    (is_safe_path fs root (getRequestedPath root req.route.path) = some false →
      (handle_get_request fs req root).status = ResponseStatus.forbidden) ∧
    (is_safe_path fs root (getRequestedPath root req.route.path) = none →
      (handle_get_request fs req root).status = ResponseStatus.notFound) ∧
    (is_safe_path fs root (getRequestedPath root req.route.path) = some true →
      isDirPath fs (getRequestedPath root req.route.path) = true →
      handle_get_request fs req root =
        handle_directory_listing fs req (getRequestedPath root req.route.path)) ∧
    (is_safe_path fs root (getRequestedPath root req.route.path) = some true →
      isDirPath fs (getRequestedPath root req.route.path) = false →
      isFilePath fs (getRequestedPath root req.route.path) = true →
      handle_get_request fs req root =
        handle_file_request fs req (getRequestedPath root req.route.path)) ∧
    (is_safe_path fs root (getRequestedPath root req.route.path) = some true →
      isDirPath fs (getRequestedPath root req.route.path) = false →
      isFilePath fs (getRequestedPath root req.route.path) = false →
      (handle_get_request fs req root).status = ResponseStatus.notFound) := by
  refine ⟨?_, ?_, ?_, ?_, ?_⟩
  · intro h1
    simp [handle_get_request, h1]
    rfl
  · intro h1
    simp [handle_get_request, h1]
    rfl
  · intro h1 h2
    simp [handle_get_request, h1, h2]
  · intro h1 h2 h3
    simp [handle_get_request, h1, h2, h3]
  · intro h1 h2 h3
    simp [handle_get_request, h1, h2, h3]
    rfl

/-- C2 witness: the Unsafe arm at the concrete traversal request. -/
theorem C2_witness :
    (handle_get_request demoFs
      ⟨Method.get, ⟨"../etc/passwd".toList⟩, Version.v1_1, [], []⟩
      demoRoot).status = ResponseStatus.forbidden :=
  (C2_get_dispatch demoFs demoRoot
      ⟨Method.get, ⟨"../etc/passwd".toList⟩, Version.v1_1, [], []⟩).1 (by decide)

/-- C3 counterexample: for the GET request `/nope.txt` over the demo
filesystem (root `/srv` exists, the file does not), the path is Safe
and the status is 404, but the body is empty — not the bytes
`File not found` the claim requires. -/
theorem C3_counterexample :
    is_safe_path demoFs demoRoot
      (getRequestedPath demoRoot ("nope.txt".toList)) = some true ∧
    (handle_get_request demoFs
      ⟨Method.get, ⟨"nope.txt".toList⟩, Version.v1_1, [], []⟩
      demoRoot).status = ResponseStatus.notFound ∧
    (handle_get_request demoFs
      ⟨Method.get, ⟨"nope.txt".toList⟩, Version.v1_1, [], []⟩
      demoRoot).response_body ≠ utf8Str ("File not found".toList) ∧
    (handle_get_request demoFs
      ⟨Method.get, ⟨"nope.txt".toList⟩, Version.v1_1, [], []⟩
      demoRoot).response_body = [] := by
  decide

/-- C3 (amended): a Safe GET whose requested path is neither a
directory nor a regular file (in particular, one that does not exist)
is answered 404 with an empty body and diagnostic path `Not Found`;
the body `File not found` arises only in the file handler, when a path
that passed `is_file` then fails to read with NotFound. -/
theorem C3_safe_missing_file_404 (fs : Fs) (root : List Str)
    (req : HttpRequest)
    (hsafe : is_safe_path fs root (getRequestedPath root req.route.path) =
      some true)
    (hdir : isDirPath fs (getRequestedPath root req.route.path) = false)
    (hfile : isFilePath fs (getRequestedPath root req.route.path) = false) :
    (handle_get_request fs req root).status = ResponseStatus.notFound ∧
    (handle_get_request fs req root).response_body = [] ∧
    (handle_get_request fs req root).current_path = "Not Found".toList := by
  have hr : handle_get_request fs req root =
      HttpResponse.new req.version .notFound ("Not Found".toList) := by
    simp [handle_get_request, hsafe, hdir, hfile]
  refine ⟨by rw [hr]; rfl, by rw [hr]; rfl, by rw [hr]; rfl⟩

/-- C3 witness: the amended statement at the concrete `/nope.txt`
request over the demo filesystem. -/
theorem C3_witness :
    (handle_get_request demoFs
      ⟨Method.get, ⟨"nope.txt".toList⟩, Version.v1_1, [], []⟩
      demoRoot).status = ResponseStatus.notFound ∧
    (handle_get_request demoFs
      ⟨Method.get, ⟨"nope.txt".toList⟩, Version.v1_1, [], []⟩
      demoRoot).response_body = [] ∧
    (handle_get_request demoFs
      ⟨Method.get, ⟨"nope.txt".toList⟩, Version.v1_1, [], []⟩
      demoRoot).current_path = "Not Found".toList :=
  C3_safe_missing_file_404 demoFs demoRoot
    ⟨Method.get, ⟨"nope.txt".toList⟩, Version.v1_1, [], []⟩
    (by decide) (by decide) (by decide)

/-- C1: when the root canonicalizes to `cr`, the safety check returns
Safe exactly when the requested path exists (canonicalizes) with its
canonical form prefixed by `cr`, or does not exist and has a parent
whose canonical form is prefixed by `cr`; and the traversal request
path `/../etc/passwd` under root `/srv` — plain or percent-encoded —
is classified Unsafe. -/
theorem C1_safety_check (fs : Fs) (root p cr : List Str)
    (hcr : canonicalize fs root = some cr) :
    (is_safe_path fs root p = some true ↔
      ((∃ c, canonicalize fs p = some c ∧ cr.isPrefixOf c = true) ∨
       (canonicalize fs p = none ∧
        ∃ par cp, parentPath p = some par ∧ canonicalize fs par = some cp ∧
          cr.isPrefixOf cp = true))) ∧
    is_safe_path demoFs demoRoot
      (getRequestedPath demoRoot (Route.new ("/../etc/passwd".toList)).path) =
      some false ∧
    is_safe_path demoFs demoRoot
      (getRequestedPath demoRoot (Route.new ("/%2e%2e/etc/passwd".toList)).path) =
      some false ∧
    is_safe_path demoFs demoRoot
      (getRequestedPath demoRoot (Route.new ("/..%2Fetc%2Fpasswd".toList)).path) =
      some false := by
  refine ⟨?_, by decide, by decide, by decide⟩
  rcases hex : canonicalize fs p with _ | c
  · have hpe : pathExists fs p = false := by rw [pathExists, hex]; rfl
    rcases hpar : parentPath p with _ | par
    · simp [is_safe_path, hcr, hpe, hex, hpar]
    · rcases hcp : canonicalize fs par with _ | cp
      · simp [is_safe_path, hcr, hpe, hex, hpar, hcp]
      · simp [is_safe_path, hcr, hpe, hex, hpar, hcp]
  · have hpe : pathExists fs p = true := by rw [pathExists, hex]; rfl
    simp [is_safe_path, hcr, hpe, hex]

/-- C1 witness: the characterization applied over the demo filesystem
at the nonexistent path `/srv/nope.txt`, whose parent `/srv` is the
canonical root. -/
theorem C1_witness :
    is_safe_path demoFs demoRoot ["srv".toList, "nope.txt".toList] =
      some true :=
  ((C1_safety_check demoFs demoRoot ["srv".toList, "nope.txt".toList]
      ["srv".toList] (by decide)).1).mpr
    (Or.inr ⟨by decide, ["srv".toList], ["srv".toList],
      by decide, by decide, by decide⟩)
